import Mathlib

/-!
Shallow embedding of the vraag-en-aanbod bulletin-board application:
the client project filter (`src/components/AdminCMS.tsx`), the server
project CRUD handlers and the admin request/approval workflow
(`src/supabase/functions/server/index.tsx` and the two server variants
shipped as unnamed source files), over the key-value store contract
(get / set / delete / prefix-scan) that the spec treats as external.
-/

namespace VraagAanbod

/-! ## JavaScript string primitives -/

/-- Occurrence of `t` as a contiguous run inside `s`, both as char lists.
Models JavaScript `s.includes(t)` (empty pattern always matches). -/
def charsInfix (t : List Char) : List Char → Bool
  | [] => t.isEmpty
  | c :: s => t.isPrefixOf (c :: s) || charsInfix t s

/-- JavaScript `s.includes(t)`. -/
def jsIncludes (s t : String) : Bool :=
  charsInfix t.data s.data

/-- JavaScript `s.toLowerCase()`, character by character. -/
def strToLower (s : String) : String :=
  String.mk (s.data.map Char.toLower)

/-- Lexicographic order on char lists by code point. -/
def charListLe : List Char → List Char → Bool
  | [], _ => true
  | _ :: _, [] => false
  | a :: as, b :: bs =>
      if a.toNat < b.toNat then true
      else if b.toNat < a.toNat then false
      else charListLe as bs

/-- Lexicographic string order; on `toISOString` timestamps it coincides
with the order of the underlying `Date` values. -/
def strLe (a b : String) : Bool := charListLe a.data b.data

/-- Insert into a sorted list, keeping earlier elements first on ties. -/
def insertBy {α : Type} (le : α → α → Bool) (x : α) : List α → List α
  | [] => [x]
  | y :: ys => if le x y then x :: y :: ys else y :: insertBy le x ys

/-- A stable comparison sort, the model of `Array.prototype.sort` with a
user comparator. -/
def sortBy {α : Type} (le : α → α → Bool) : List α → List α
  | [] => []
  | x :: xs => insertBy le x (sortBy le xs)

/-! ## Data model

`Project` follows the client interface in `AdminCMS.tsx:442-454` plus the
server-assigned `updatedAt`; `urgency` is kept as a string because every
comparison in the code is a string comparison. -/

structure Project where
  id : String
  title : String
  description : String
  category : String
  skills : List String
  urgency : String
  studentName : String
  contactInfo : String
  imageUrl : Option String := none
  deadline : Option String := none
  createdAt : String
  updatedAt : String
  deriving Repr, DecidableEq

/-- The four client filter controls of `ProjectsPage`
(`AdminCMS.tsx:462-465`); the category/skill/urgency sentinel is the
string `"all"`, the search sentinel is the empty string. -/
structure Criteria where
  searchTerm : String
  selectedCategory : String
  selectedSkill : String
  selectedUrgency : String
  deriving Repr, DecidableEq

/-- The optional query parameters of `GET /projects`
(`index.tsx:283-286`); `none` models an absent parameter. -/
structure Query where
  category : Option String
  skill : Option String
  urgency : Option String
  search : Option String
  deriving Repr, DecidableEq

/-! ## Client filtering (`AdminCMS.tsx:475-502`) -/

/-- The free-text predicate of the client filter (`AdminCMS.tsx:478-487`):
the lowercased term occurs in the lowercased title, description, category,
any skill, or student name. -/
def clientSearchMatch (p : Project) (searchTerm : String) : Bool :=
  let term := strToLower searchTerm
  jsIncludes (strToLower p.title) term ||
  jsIncludes (strToLower p.description) term ||
  jsIncludes (strToLower p.category) term ||
  p.skills.any (fun skill => jsIncludes (strToLower skill) term) ||
  jsIncludes (strToLower p.studentName) term

/-- `filterProjects` (`AdminCMS.tsx:475-502`): four sequential filters,
each applied only when its control is active (`if (searchTerm)` is the
JavaScript truthiness test, i.e. a non-empty string). -/
def filterProjects (projects : List Project) (cr : Criteria) : List Project :=
  let filtered := projects
  let filtered := if cr.searchTerm ≠ "" then
      filtered.filter (fun p => clientSearchMatch p cr.searchTerm) else filtered
  let filtered := if cr.selectedCategory ≠ "all" then
      filtered.filter (fun p => p.category == cr.selectedCategory) else filtered
  let filtered := if cr.selectedSkill ≠ "all" then
      filtered.filter (fun p => p.skills.contains cr.selectedSkill) else filtered
  let filtered := if cr.selectedUrgency ≠ "all" then
      filtered.filter (fun p => p.urgency == cr.selectedUrgency) else filtered
  filtered

/-- Spec-side restatement of §4.1/§8: an item passes exactly when it
satisfies every *active* predicate (AND semantics). Stated from the
spec's words, to be compared with `filterProjects`. -/
def clientMatchesSpec (cr : Criteria) (p : Project) : Prop :=
  (cr.searchTerm ≠ "" → clientSearchMatch p cr.searchTerm = true) ∧
  (cr.selectedCategory ≠ "all" → p.category = cr.selectedCategory) ∧
  (cr.selectedSkill ≠ "all" → p.skills.contains cr.selectedSkill = true) ∧
  (cr.selectedUrgency ≠ "all" → p.urgency = cr.selectedUrgency)

/-! ## Key-value store contract

`kv_store.tsx` is consumed through get / set / delete / prefix-scan only
(spec §1 treats the engine itself as an external collaborator). Modelled
as an association list keyed by strings. -/

/-- A key-value store with string keys. -/
abbrev KvStore (α : Type) := List (String × α)

/-- Contract of `kv.get`: the value at the first matching key, if any. -/
def kvGet {α : Type} (st : KvStore α) (k : String) : Option α :=
  match st.find? (fun e => e.1 == k) with
  | none => none
  | some e => some e.2

/-- Contract of `kv.set`: upsert, replacing the value at an existing key
and appending a fresh entry otherwise. -/
def kvSet {α : Type} : KvStore α → String → α → KvStore α
  | [], k, v => [(k, v)]
  | e :: es, k, v => if e.1 == k then (k, v) :: es else e :: kvSet es k v

/-- Contract of `kv.del`: remove the key. -/
def kvDel {α : Type} (st : KvStore α) (k : String) : KvStore α :=
  st.filter (fun e => !(e.1 == k))

/-- Contract of `kv.getByPrefix`: the values of all keys carrying the
given prefix, in store iteration order. -/
def kvGetByPref {α : Type} (st : KvStore α) (pre : String) : List α :=
  (st.filter (fun e => pre.data.isPrefixOf e.1.data)).map (fun e => e.2)

/-! ## Server listing (`GET /projects`, `index.tsx:281-327`) -/

/-- The free-text predicate of the server list endpoint
(`index.tsx:309-317`): title, description, category, or any skill — the
student name is not consulted. In this typed model `skills` is always
present, so the `project.skills &&` guard is vacuous. -/
def serverSearchMatch (p : Project) (search : String) : Bool :=
  let searchLower := strToLower search
  jsIncludes (strToLower p.title) searchLower ||
  jsIncludes (strToLower p.description) searchLower ||
  jsIncludes (strToLower p.category) searchLower ||
  p.skills.any (fun s => jsIncludes (strToLower s) searchLower)

/-- The four `if (param)` filters of `GET /projects`
(`index.tsx:291-317`): each runs only when the query parameter is present
and non-empty (JavaScript truthiness on `string | undefined`). -/
def serverFilterProjects (allProjects : List Project) (q : Query) : List Project :=
  let filtered := allProjects
  let filtered := match q.category with
    | none => filtered
    | some category =>
        if category = "" then filtered
        else filtered.filter (fun p => p.category == category)
  let filtered := match q.skill with
    | none => filtered
    | some skill =>
        if skill = "" then filtered
        else filtered.filter (fun p => p.skills.contains skill)
  let filtered := match q.urgency with
    | none => filtered
    | some urgency =>
        if urgency = "" then filtered
        else filtered.filter (fun p => p.urgency == urgency)
  let filtered := match q.search with
    | none => filtered
    | some search =>
        if search = "" then filtered
        else filtered.filter (fun p => serverSearchMatch p search)
  filtered

/-- The sort of `index.tsx:320`: newest first. `toISOString` timestamps
order lexicographically exactly as chronologically, so the `Date`
comparison is modelled by the string order on `createdAt`. -/
def sortByCreatedAtDesc (l : List Project) : List Project :=
  sortBy (fun a b => strLe b.createdAt a.createdAt) l

/-- The project store: `project_…` keys hold `Project` records. -/
abbrev PStore := KvStore Project

/-- `GET /projects` (`index.tsx:281-327`): prefix-scan `project_`, apply
the four optional filters, sort newest first. -/
def getProjects (st : PStore) (q : Query) : List Project :=
  let allProjects := kvGetByPref st "project_"
  sortByCreatedAtDesc (serverFilterProjects allProjects q)

/-! ## Decimal rendering of the millisecond clock

`Date.now()` interpolated into a template literal renders as the decimal
numeral; modelled by `natDecimal`, built on `Nat.digits` so that
injectivity and digits-only are provable. -/

/-- Decimal numeral of a natural number, most significant digit first. -/
def natDecimal (n : Nat) : String :=
  if n = 0 then "0"
  else String.mk (((Nat.digits 10 n).reverse.map Nat.digitChar))

/-- The id template of `POST /projects` (`index.tsx:333`):
`project_` + `Date.now()` + `_` + `Math.random().toString(36).substr(2, 9)`. -/
def genProjectId (nowMs : Nat) (rand : String) : String :=
  "project_" ++ natDecimal nowMs ++ "_" ++ rand

/-- The id template of `POST /admin/request` (`index.tsx:422`). -/
def genRequestId (nowMs : Nat) (rand : String) : String :=
  "request_" ++ natDecimal nowMs ++ "_" ++ rand

/-! ## Project CRUD handlers -/

/-- A `POST /projects` request body as the client submits it: the form
fields, plus the fields a caller may smuggle in — the object literal of
`index.tsx:335-340` spreads the body *after* the generated `id` and
*before* the server timestamps, so a body `id` overrides the generated id
while body `createdAt`/`updatedAt` are overridden by the server. -/
structure ProjectData where
  id : Option String := none
  title : String
  description : String
  category : String
  skills : List String
  urgency : String
  studentName : String
  contactInfo : String
  imageUrl : Option String := none
  deadline : Option String := none
  createdAt : Option String := none
  updatedAt : Option String := none
  deriving Repr, DecidableEq

/-- `POST /projects` (`index.tsx:330-348`): build the record
`\x7bid: projectId, ...projectData, createdAt: now, updatedAt: now\x7d` and
store it under the generated key. `nowMs`/`rand` feed the id template,
`now` is the request's `toISOString` clock reading. -/
def createProject (st : PStore) (data : ProjectData) (nowMs : Nat)
    (rand : String) (now : String) : Project × PStore :=
  let projectId := genProjectId nowMs rand
  let project : Project :=
    { id := data.id.getD projectId
      title := data.title
      description := data.description
      category := data.category
      skills := data.skills
      urgency := data.urgency
      studentName := data.studentName
      contactInfo := data.contactInfo
      imageUrl := data.imageUrl
      deadline := data.deadline
      createdAt := now
      updatedAt := now }
  (project, kvSet st projectId project)

/-- A `PUT /projects/:id` body: any subset of the record's fields may be
present (`some`), including `id`, `createdAt` and `updatedAt`. -/
structure ProjectUpdate where
  id : Option String := none
  title : Option String := none
  description : Option String := none
  category : Option String := none
  skills : Option (List String) := none
  urgency : Option String := none
  studentName : Option String := none
  contactInfo : Option String := none
  imageUrl : Option (Option String) := none
  deadline : Option (Option String) := none
  createdAt : Option String := none
  updatedAt : Option String := none
  deriving Repr, DecidableEq

/-- The merge of `index.tsx:368-372`:
`\x7b...existingProject, ...updates, updatedAt: now\x7d` — every field present
in the body wins over the existing record, and `updatedAt`, written last,
is always the server clock. -/
def mergeProject (p : Project) (u : ProjectUpdate) (now : String) : Project :=
  { id := u.id.getD p.id
    title := u.title.getD p.title
    description := u.description.getD p.description
    category := u.category.getD p.category
    skills := u.skills.getD p.skills
    urgency := u.urgency.getD p.urgency
    studentName := u.studentName.getD p.studentName
    contactInfo := u.contactInfo.getD p.contactInfo
    imageUrl := u.imageUrl.getD p.imageUrl
    deadline := u.deadline.getD p.deadline
    createdAt := u.createdAt.getD p.createdAt
    updatedAt := now }

/-- Outcome of `PUT /projects/:id`. -/
inductive PutResult where
  | unauthorized
  | notFound
  | ok (p : Project)
  deriving Repr, DecidableEq

/-- The unauthenticated `PUT /projects/:id` of the third server variant
(`part_002:523-552`), which is also the body of the authenticated
handlers after their admin gate: 404 when the key is absent, otherwise
merge, persist, return the merged record. -/
def putCore (st : PStore) (projectId : String) (updates : ProjectUpdate)
    (now : String) : PutResult × PStore :=
  match kvGet st projectId with
  | none => (PutResult.notFound, st)
  | some existingProject =>
      let updatedProject := mergeProject existingProject updates now
      (PutResult.ok updatedProject, kvSet st projectId updatedProject)

/-- `PUT /projects/:id` of `index.tsx:351-380` and `part_001:154-183`:
the same core behind a `verifyAdmin` gate, here represented by the
resolved admin (`none` models a missing/invalid/unapproved token). -/
def putProject (admin : Option Unit) (st : PStore) (projectId : String)
    (updates : ProjectUpdate) (now : String) : PutResult × PStore :=
  match admin with
  | none => (PutResult.unauthorized, st)
  | some _ => putCore st projectId updates now

/-- Outcome of `DELETE /projects/:id`. -/
inductive DelResult where
  | unauthorized
  | notFound
  | success
  deriving Repr, DecidableEq

/-- `DELETE /projects/:id` of `index.tsx:383-400`: admin gate, then
`kv.del` with *no existence check* — the handler reports success whether
or not the key was present. -/
def deleteProject (admin : Option Unit) (st : PStore) (projectId : String) :
    DelResult × PStore :=
  match admin with
  | none => (DelResult.unauthorized, st)
  | some _ => (DelResult.success, kvDel st projectId)

/-- The existence-checked delete core shared by `part_001:186-208`
(behind the admin gate) and `part_002:555-583` (no gate): 404 when the
key is absent, otherwise remove it. -/
def deleteCore (st : PStore) (projectId : String) : DelResult × PStore :=
  match kvGet st projectId with
  | none => (DelResult.notFound, st)
  | some _ => (DelResult.success, kvDel st projectId)

/-- `DELETE /projects/:id` of `part_001:186-208`: the checked core behind
the admin gate. -/
def deleteProjectChecked (admin : Option Unit) (st : PStore)
    (projectId : String) : DelResult × PStore :=
  match admin with
  | none => (DelResult.unauthorized, st)
  | some _ => deleteCore st projectId

/-! ## Admin request / approval workflow (`index.tsx:403-503`) -/

/-- An entry of the `admin_users` list (`index.tsx:82-88`, `486-493`). -/
structure AdminUser where
  email : String
  name : String
  approved : Bool
  approvedAt : String
  approvedBy : String
  deriving Repr, DecidableEq

/-- An entry of the `admin_requests` list (`index.tsx:424-430`):
`approvedAt`/`approvedBy` appear only once the request is approved. -/
structure AdminRequest where
  id : String
  email : String
  name : String
  createdAt : String
  approved : Bool
  approvedAt : Option String := none
  approvedBy : Option String := none
  deriving Repr, DecidableEq

/-- The two list-valued keys the admin workflow reads and writes
(`admin_users` and `admin_requests`). -/
structure AdminState where
  admin_users : List AdminUser
  admin_requests : List AdminRequest
  deriving Repr, DecidableEq

/-- Outcome of `POST /admin/request`. -/
inductive RequestResult where
  | accountCreationError
  | ok
  deriving Repr, DecidableEq

/-- `POST /admin/request` (`index.tsx:403-440`): first create the account
at the external auth provider — `authOk` is that provider's verdict — and
fail the whole operation if it errors; otherwise append one pending
request (`approved: false`) to `admin_requests`. -/
def submitAdminRequest (authOk : Bool) (st : AdminState) (email name : String)
    (nowMs : Nat) (rand : String) (now : String) : RequestResult × AdminState :=
  if !authOk then (RequestResult.accountCreationError, st)
  else
    let request : AdminRequest :=
      { id := genRequestId nowMs rand
        email := email
        name := name
        createdAt := now
        approved := false }
    (RequestResult.ok,
      { st with admin_requests := st.admin_requests ++ [request] })

/-- Outcome of `PUT /admin/requests/:id/approve`. -/
inductive ApproveResult where
  | unauthorized
  | notFound
  | ok
  deriving Repr, DecidableEq

/-- The in-place mutation of `index.tsx:480-483`: stamp the request
approved. -/
def stampRequest (now approverEmail : String) (r : AdminRequest) : AdminRequest :=
  { r with approved := true, approvedAt := some now, approvedBy := some approverEmail }

/-- Mutating the first list element satisfying `p` — the effect of
JavaScript `findIndex` followed by an element assignment and a write-back
of the whole array. -/
def updateFirst {α : Type} (p : α → Bool) (f : α → α) : List α → List α
  | [] => []
  | x :: xs => if p x then f x :: xs else x :: updateFirst p f xs

/-- `PUT /admin/requests/:id/approve` (`index.tsx:463-503`): behind the
admin gate, locate the request by id (404 when absent), stamp it
approved, and push one `AdminUser` built from the stamped request onto
`admin_users`; both lists are written back. -/
def approveRequest (admin : Option AdminUser) (st : AdminState)
    (requestId : String) (now : String) : ApproveResult × AdminState :=
  match admin with
  | none => (ApproveResult.unauthorized, st)
  | some admin =>
      match st.admin_requests.find? (fun r => r.id == requestId) with
      | none => (ApproveResult.notFound, st)
      | some request =>
          let newUser : AdminUser :=
            { email := request.email
              name := request.name
              approved := true
              approvedAt := now
              approvedBy := admin.email }
          (ApproveResult.ok,
            { admin_users := st.admin_users ++ [newUser]
              admin_requests :=
                updateFirst (fun r => r.id == requestId)
                  (stampRequest now admin.email) st.admin_requests })

/-! ## Untyped store model

The handlers take the raw `:id` path segment as the store key: nothing
restricts it to `project_…` keys, so `PUT`/`DELETE /projects/:id` can hit
`admin_users`, `admin_requests`, `categories` or `skills`. That needs a
value type covering every JSON value the store holds. -/

/-- A JSON value as stored by the key-value engine. -/
inductive JVal where
  | jnull
  | jbool (b : Bool)
  | jnum (n : Int)
  | jstr (s : String)
  | jarr (xs : List JVal)
  | jobj (fields : List (String × JVal))

/-- The untyped store. -/
abbrev JStore := KvStore JVal

/-- Own enumerable properties contributed by `...v` inside an object
literal: objects give their fields, arrays their elements under decimal
index keys, strings their characters likewise; other primitives give
nothing. -/
def jsSpreadFields : JVal → List (String × JVal)
  | JVal.jobj fields => fields
  | JVal.jarr xs => xs.enum.map (fun e => (natDecimal e.1, e.2))
  | JVal.jstr s => s.data.enum.map (fun e => (natDecimal e.1, JVal.jstr (String.mk [e.2])))
  | _ => []

/-- Define key `k` to value `v` in an object under construction: a later
definition overwrites the value of an existing key in place, a new key is
appended. -/
def setField (fields : List (String × JVal)) (k : String) (v : JVal) :
    List (String × JVal) :=
  if fields.any (fun f => f.1 == k) then
    fields.map (fun f => if f.1 == k then (k, v) else f)
  else fields ++ [(k, v)]

/-- Evaluation of an object literal: define each contributed key-value
pair in order. -/
def jsObjLit (parts : List (String × JVal)) : List (String × JVal) :=
  parts.foldl (fun acc kv => setField acc kv.1 kv.2) []

/-- The update expression `\x7b...existingProject, ...updates, updatedAt: now\x7d`
evaluated on arbitrary stored values. -/
def jsMergeUpdate (existing updates : JVal) (now : String) : JVal :=
  JVal.jobj (jsObjLit
    (jsSpreadFields existing ++ jsSpreadFields updates ++
      [("updatedAt", JVal.jstr now)]))

/-- The unauthenticated `PUT /projects/:id` of `part_002:523-552` over the
untyped store: no admin gate, no key-shape check — fetch whatever the
path id names, merge, write it back. -/
def putAnyKey (st : JStore) (projectId : String) (updates : JVal)
    (now : String) : Option JVal × JStore :=
  match kvGet st projectId with
  | none => (none, st)
  | some existingProject =>
      let updatedProject := jsMergeUpdate existingProject updates now
      (some updatedProject, kvSet st projectId updatedProject)

/-- The unauthenticated `DELETE /projects/:id` of `part_002:555-583` over
the untyped store: no admin gate, no key-shape check — existence test,
then `kv.del` of whatever the path id names. -/
def deleteAnyKey (st : JStore) (projectId : String) : Bool × JStore :=
  match kvGet st projectId with
  | none => (false, st)
  | some _ => (true, kvDel st projectId)

/-! ## Store lemmas -/

theorem kvGet_eq_none_iff {α : Type} (st : KvStore α) (k : String) :
    kvGet st k = none ↔ st.find? (fun e => e.1 == k) = none := by
  unfold kvGet
  cases st.find? (fun e => e.1 == k) <;> simp

theorem kvGet_kvSet_self {α : Type} (st : KvStore α) (k : String) (v : α) :
    kvGet (kvSet st k v) k = some v := by
  induction st with
  | nil => simp [kvGet, kvSet, List.find?]
  | cons e es ih =>
      by_cases h : e.1 == k
      · simp [kvSet, h, kvGet, List.find?]
      · simp only [kvSet, h, Bool.false_eq_true, if_false]
        simpa [kvGet, List.find?, h] using ih

theorem kvGet_kvSet_ne {α : Type} (st : KvStore α) (k k' : String) (v : α)
    (h : k' ≠ k) : kvGet (kvSet st k v) k' = kvGet st k' := by
  induction st with
  | nil =>
      have : (k == k') = false := by simpa using fun hkk => h hkk.symm
      simp [kvGet, kvSet, List.find?, this]
  | cons e es ih =>
      by_cases he : e.1 == k
      · have hke : (k == k') = false := by simpa using fun hkk => h hkk.symm
        have he' : (e.1 == k') = false := by
          have : e.1 = k := by simpa using he
          simpa [this] using fun hkk => h hkk.symm
        simp [kvGet, kvSet, he, List.find?, hke, he']
      · simp only [kvSet, he, Bool.false_eq_true, if_false]
        by_cases he' : e.1 == k'
        · simp [kvGet, List.find?, he']
        · simpa [kvGet, List.find?, he'] using ih

theorem kvGet_kvDel_self {α : Type} (st : KvStore α) (k : String) :
    kvGet (kvDel st k) k = none := by
  rw [kvGet_eq_none_iff]
  rw [List.find?_eq_none]
  intro e he
  have := (List.mem_filter.1 he).2
  simpa using this

theorem kvGet_kvDel_ne {α : Type} (st : KvStore α) (k k' : String)
    (h : k' ≠ k) : kvGet (kvDel st k) k' = kvGet st k' := by
  induction st with
  | nil => simp [kvDel]
  | cons e es ih =>
      by_cases he : e.1 == k
      · have he' : (e.1 == k') = false := by
          have : e.1 = k := by simpa using he
          simpa [this] using fun hkk => h hkk.symm
        have hstep : kvDel (e :: es) k = kvDel es k := by
          simp [kvDel, List.filter_cons, he]
        rw [hstep, ih]
        simp [kvGet, List.find?, he']
      · have hstep : kvDel (e :: es) k = e :: kvDel es k := by
          simp [kvDel, List.filter_cons, he]
        rw [hstep]
        by_cases he' : e.1 == k'
        · simp [kvGet, List.find?, he']
        · simpa [kvGet, List.find?, he'] using ih

theorem kvDel_of_absent {α : Type} (st : KvStore α) (k : String)
    (h : kvGet st k = none) : kvDel st k = st := by
  rw [kvGet_eq_none_iff] at h
  rw [List.find?_eq_none] at h
  unfold kvDel
  rw [List.filter_eq_self]
  intro e he
  simpa using h e he

theorem mem_kvGetByPref {α : Type} (st : KvStore α) (pre : String) (v : α) :
    v ∈ kvGetByPref st pre ↔
      ∃ e, e ∈ st ∧ pre.data.isPrefixOf e.1.data = true ∧ e.2 = v := by
  unfold kvGetByPref
  simp only [List.mem_map, List.mem_filter]
  constructor
  · rintro ⟨e, ⟨hmem, hpre⟩, hv⟩
    exact ⟨e, hmem, hpre, hv⟩
  · rintro ⟨e, hmem, hpre, hv⟩
    exact ⟨e, ⟨hmem, hpre⟩, hv⟩

theorem mem_kvGetByPref_kvDel {α : Type} (st : KvStore α) (pre k : String) (v : α)
    (h : v ∈ kvGetByPref (kvDel st k) pre) :
    ∃ e, e ∈ st ∧ e.1 ≠ k ∧ pre.data.isPrefixOf e.1.data = true ∧ e.2 = v := by
  obtain ⟨e, hmem, hpre, hv⟩ := (mem_kvGetByPref _ _ _).1 h
  obtain ⟨hst, hne⟩ := List.mem_filter.1 hmem
  refine ⟨e, hst, ?_, hpre, hv⟩
  simpa using hne

/-! ## Filter membership lemmas -/

theorem mem_filterProjects (l : List Project) (cr : Criteria) (p : Project) :
    p ∈ filterProjects l cr ↔ p ∈ l ∧ clientMatchesSpec cr p := by
  unfold filterProjects clientMatchesSpec
  by_cases h1 : cr.searchTerm = "" <;>
  by_cases h2 : cr.selectedCategory = "all" <;>
  by_cases h3 : cr.selectedSkill = "all" <;>
  by_cases h4 : cr.selectedUrgency = "all" <;>
    simp [h1, h2, h3, h4, List.mem_filter, and_assoc] <;>
    tauto

/-- Spec-side restatement of §4.2 List: an item passes exactly when it
satisfies every query parameter that is present and non-empty. -/
def serverMatchesSpec (q : Query) (p : Project) : Prop :=
  (match q.category with
    | none => True
    | some category => category = "" ∨ p.category = category) ∧
  (match q.skill with
    | none => True
    | some skill => skill = "" ∨ p.skills.contains skill = true) ∧
  (match q.urgency with
    | none => True
    | some urgency => urgency = "" ∨ p.urgency = urgency) ∧
  (match q.search with
    | none => True
    | some search => search = "" ∨ serverSearchMatch p search = true)

theorem mem_serverFilterProjects (l : List Project) (q : Query) (p : Project) :
    p ∈ serverFilterProjects l q ↔ p ∈ l ∧ serverMatchesSpec q p := by
  obtain ⟨qc, qs, qu, qse⟩ := q
  unfold serverFilterProjects serverMatchesSpec
  cases qc <;> cases qs <;> cases qu <;> cases qse <;>
    (try simp_all [List.mem_filter]) <;>
    (try split_ifs) <;>
    (try simp_all [List.mem_filter]) <;>
    tauto

theorem mem_insertBy {α : Type} (le : α → α → Bool) (x a : α) (l : List α) :
    a ∈ insertBy le x l ↔ a = x ∨ a ∈ l := by
  induction l with
  | nil => simp [insertBy]
  | cons y ys ih =>
      by_cases h : le x y
      · simp [insertBy, h]
      · simp [insertBy, h, ih]
        tauto

theorem mem_sortBy {α : Type} (le : α → α → Bool) (a : α) (l : List α) :
    a ∈ sortBy le l ↔ a ∈ l := by
  induction l with
  | nil => simp [sortBy]
  | cons y ys ih => simp [sortBy, mem_insertBy, ih]

theorem mem_getProjects (st : PStore) (q : Query) (p : Project) :
    p ∈ getProjects st q ↔
      p ∈ kvGetByPref st "project_" ∧ serverMatchesSpec q p := by
  unfold getProjects sortByCreatedAtDesc
  rw [mem_sortBy]
  exact mem_serverFilterProjects _ _ _

/-- The client free-text predicate is the server one extended with the
student-name field. -/
theorem clientSearchMatch_eq (p : Project) (t : String) :
    clientSearchMatch p t =
      (serverSearchMatch p t ||
        jsIncludes (strToLower p.studentName) (strToLower t)) := by
  simp [clientSearchMatch, serverSearchMatch, Bool.or_assoc]

/-! ## Decimal numeral lemmas -/

theorem digitChar_lt_ten_inj :
    ∀ a, a < 10 → ∀ b, b < 10 → Nat.digitChar a = Nat.digitChar b → a = b := by
  decide

theorem digitChar_ne_underscore : ∀ a, a < 10 → Nat.digitChar a ≠ '_' := by
  decide

theorem map_digitChar_inj :
    ∀ l₁ l₂ : List Nat, (∀ d ∈ l₁, d < 10) → (∀ d ∈ l₂, d < 10) →
      l₁.map Nat.digitChar = l₂.map Nat.digitChar → l₁ = l₂ := by
  intro l₁
  induction l₁ with
  | nil => intro l₂ _ _ h; cases l₂ <;> simp_all
  | cons a t ih =>
      intro l₂ h₁ h₂ h
      cases l₂ with
      | nil => simp_all
      | cons b t₂ =>
          simp only [List.map_cons, List.cons.injEq] at h
          have ha : a = b :=
            digitChar_lt_ten_inj a (h₁ a (by simp)) b (h₂ b (by simp)) h.1
          have ht := ih t₂ (fun d hd => h₁ d (by simp [hd]))
            (fun d hd => h₂ d (by simp [hd])) h.2
          simp [ha, ht]

theorem natDecimal_inj {m n : Nat} (h : natDecimal m = natDecimal n) : m = n := by
  have hd := congrArg String.data h
  unfold natDecimal at hd
  by_cases hm : m = 0 <;> by_cases hn : n = 0
  · simp [hm, hn]
  · exfalso
    simp only [hm, hn, if_true, if_false] at hd
    have hd' : ['0'] = (Nat.digits 10 n).reverse.map Nat.digitChar := hd
    match hrev : (Nat.digits 10 n).reverse with
    | [] => rw [hrev] at hd'; simp at hd'
    | d :: rest =>
        rw [hrev] at hd'
        simp only [List.map_cons, List.cons.injEq] at hd'
        have hrest : rest = [] := List.map_eq_nil_iff.1 hd'.2.symm
        have hdm : d ∈ Nat.digits 10 n := by
          have : d ∈ (Nat.digits 10 n).reverse := by rw [hrev]; simp
          simpa using this
        have hdlt : d < 10 := Nat.digits_lt_base (by norm_num) hdm
        have hd0 : d = 0 :=
          digitChar_lt_ten_inj d hdlt 0 (by norm_num) hd'.1.symm
        have hdig : Nat.digits 10 n = [0] := by
          have := congrArg List.reverse hrev
          simpa [hrest, hd0] using this
        have : n = 0 := by
          have hofd := Nat.ofDigits_digits 10 n
          rw [hdig] at hofd
          simpa [Nat.ofDigits] using hofd.symm
        exact hn this
  · exfalso
    simp only [hm, hn, if_true, if_false] at hd
    have hd' : ['0'] = (Nat.digits 10 m).reverse.map Nat.digitChar := hd.symm
    match hrev : (Nat.digits 10 m).reverse with
    | [] => rw [hrev] at hd'; simp at hd'
    | d :: rest =>
        rw [hrev] at hd'
        simp only [List.map_cons, List.cons.injEq] at hd'
        have hrest : rest = [] := List.map_eq_nil_iff.1 hd'.2.symm
        have hdm : d ∈ Nat.digits 10 m := by
          have : d ∈ (Nat.digits 10 m).reverse := by rw [hrev]; simp
          simpa using this
        have hdlt : d < 10 := Nat.digits_lt_base (by norm_num) hdm
        have hd0 : d = 0 :=
          digitChar_lt_ten_inj d hdlt 0 (by norm_num) hd'.1.symm
        have hdig : Nat.digits 10 m = [0] := by
          have := congrArg List.reverse hrev
          simpa [hrest, hd0] using this
        have : m = 0 := by
          have hofd := Nat.ofDigits_digits 10 m
          rw [hdig] at hofd
          simpa [Nat.ofDigits] using hofd.symm
        exact hm this
  · simp only [hm, hn, if_false] at hd
    have hmap : (Nat.digits 10 m).reverse.map Nat.digitChar =
        (Nat.digits 10 n).reverse.map Nat.digitChar := hd
    have hrev : (Nat.digits 10 m).reverse = (Nat.digits 10 n).reverse :=
      map_digitChar_inj _ _
        (fun d hd => Nat.digits_lt_base (by norm_num) (by simpa using hd))
        (fun d hd => Nat.digits_lt_base (by norm_num) (by simpa using hd))
        hmap
    have : Nat.digits 10 m = Nat.digits 10 n := by
      simpa using hrev
    exact Nat.digits_inj_iff.1 this

theorem natDecimal_no_underscore (n : Nat) : '_' ∉ (natDecimal n).data := by
  unfold natDecimal
  by_cases hn : n = 0
  · simp [hn]
  · simp only [hn, if_false]
    intro hmem
    obtain ⟨d, hd, hchar⟩ := List.mem_map.1 hmem
    have hdm : d ∈ Nat.digits 10 n := by simpa using hd
    exact digitChar_ne_underscore d (Nat.digits_lt_base (by norm_num) hdm) hchar

theorem append_sep_inj :
    ∀ (a : List Char) (b c d : List Char), '_' ∉ a → '_' ∉ c →
      a ++ '_' :: b = c ++ '_' :: d → a = c ∧ b = d := by
  intro a
  induction a with
  | nil =>
      intro b c d _ hc h
      cases c with
      | nil => simpa using h
      | cons y ys =>
          exfalso
          simp only [List.nil_append, List.cons_append, List.cons.injEq] at h
          exact hc (by simp [h.1.symm])
  | cons x xs ih =>
      intro b c d ha hc h
      cases c with
      | nil =>
          exfalso
          simp only [List.cons_append, List.nil_append, List.cons.injEq] at h
          exact ha (by simp [h.1])
      | cons y ys =>
          simp only [List.cons_append, List.cons.injEq] at h
          have hxs : xs ++ '_' :: b = ys ++ '_' :: d := h.2
          have := ih b ys d (fun hm => ha (by simp [hm])) (fun hm => hc (by simp [hm])) hxs
          exact ⟨by simp [h.1, this.1], this.2⟩

theorem genProjectId_inj {t₁ t₂ : Nat} {r₁ r₂ : String}
    (h : genProjectId t₁ r₁ = genProjectId t₂ r₂) : t₁ = t₂ ∧ r₁ = r₂ := by
  have hd := congrArg String.data h
  unfold genProjectId at hd
  simp only [String.data_append, List.append_assoc] at hd
  have hd' : (natDecimal t₁).data ++ ('_' :: r₁.data) =
      (natDecimal t₂).data ++ ('_' :: r₂.data) := by
    have := List.append_cancel_left hd
    simpa using this
  obtain ⟨hx, hr⟩ := append_sep_inj _ _ _ _
    (natDecimal_no_underscore t₁) (natDecimal_no_underscore t₂) hd'
  exact ⟨natDecimal_inj (String.ext hx), String.ext hr⟩

theorem genProjectId_ne_empty (t : Nat) (r : String) : genProjectId t r ≠ "" := by
  intro h
  have hd := congrArg String.data h
  unfold genProjectId at hd
  simp at hd

/-! ## updateFirst lemmas -/

theorem find?_updateFirst {α : Type} (p : α → Bool) (f : α → α) (l : List α) (x : α)
    (hx : l.find? p = some x) (hf : p (f x) = true) :
    (updateFirst p f l).find? p = some (f x) := by
  induction l with
  | nil => simp [List.find?] at hx
  | cons y ys ih =>
      by_cases hy : p y
      · have hyx : y = x := by simpa [List.find?, hy] using hx
        subst hyx
        simp [updateFirst, hy, List.find?, hf]
      · have hx' : ys.find? p = some x := by simpa [List.find?, hy] using hx
        simp [updateFirst, hy, List.find?, ih hx']


/-! ## Shared sample data -/

/-- The §8 end-to-end sample project, stored under key `project_1`. -/
def pLogo : Project :=
  { id := "project_1"
    title := "Logo"
    description := "need a logo"
    category := "Design"
    skills := ["Illustrator"]
    urgency := "normal"
    studentName := "Ana"
    contactInfo := "ana@x.nl"
    createdAt := "2024-01-01T10:00:00.000Z"
    updatedAt := "2024-01-01T10:00:00.000Z" }

example : clientSearchMatch pLogo "ana" = true := by decide
example : serverSearchMatch pLogo "ana" = false := by decide
example : clientSearchMatch pLogo "react" = false := by decide
example : filterProjects [pLogo] ⟨"ana", "all", "all", "all"⟩ = [pLogo] := by decide
example : getProjects [("project_1", pLogo)] ⟨none, none, none, some "ana"⟩ = [] := by decide
example : getProjects [("project_1", pLogo)] ⟨none, none, none, none⟩ = [pLogo] := by decide
example : natDecimal 17 = "17" := by
  rw [natDecimal]
  norm_num
  rfl

example : genProjectId 17 "k3j9x2m4q" = "project_17_k3j9x2m4q" := by
  rw [genProjectId, natDecimal]
  norm_num
  rfl

/-! ## Claims about the client filter -/

/-- C2: for every input project list and every combination of the four
filter criteria (each a concrete value or its sentinel), `filterProjects`
returns exactly the input items satisfying every active predicate
simultaneously — membership in the output is equivalent to membership in
the input plus the conjunction of the active predicates. -/
theorem filterProjects_mem_iff (l : List Project) (cr : Criteria) (p : Project) :
    p ∈ filterProjects l cr ↔ p ∈ l ∧ clientMatchesSpec cr p :=
  mem_filterProjects l cr p

/-! ## Claims about the list endpoint vs the client filter -/

/-- The intended mapping between the client filter controls and the
server query parameters: sentinel `"all"` / empty search become absent
parameters, and a concrete criterion is a non-empty string. -/
def correspond (cr : Criteria) (q : Query) : Prop :=
  q.search = (if cr.searchTerm = "" then none else some cr.searchTerm) ∧
  q.category = (if cr.selectedCategory = "all" then none else some cr.selectedCategory) ∧
  q.skill = (if cr.selectedSkill = "all" then none else some cr.selectedSkill) ∧
  q.urgency = (if cr.selectedUrgency = "all" then none else some cr.selectedUrgency) ∧
  cr.selectedCategory ≠ "" ∧ cr.selectedSkill ≠ "" ∧ cr.selectedUrgency ≠ ""

/-- The server predicates re-expressed over the client controls. -/
def serverMatchesCrit (cr : Criteria) (p : Project) : Prop :=
  (cr.searchTerm ≠ "" → serverSearchMatch p cr.searchTerm = true) ∧
  (cr.selectedCategory ≠ "all" → p.category = cr.selectedCategory) ∧
  (cr.selectedSkill ≠ "all" → p.skills.contains cr.selectedSkill = true) ∧
  (cr.selectedUrgency ≠ "all" → p.urgency = cr.selectedUrgency)

theorem serverMatchesSpec_correspond (cr : Criteria) (q : Query)
    (h : correspond cr q) (p : Project) :
    serverMatchesSpec q p ↔ serverMatchesCrit cr p := by
  obtain ⟨hse, hca, hsk, hur, hca0, hsk0, hur0⟩ := h
  unfold serverMatchesSpec serverMatchesCrit
  rw [hse, hca, hsk, hur]
  by_cases h1 : cr.searchTerm = "" <;>
  by_cases h2 : cr.selectedCategory = "all" <;>
  by_cases h3 : cr.selectedSkill = "all" <;>
  by_cases h4 : cr.selectedUrgency = "all" <;>
    simp [h1, h2, h3, h4, hca0, hsk0, hur0] <;>
    tauto

/-- C1 counterexample: the rules are not identical. `pLogo` has student
name `Ana` and the term `ana` nowhere else, so the client filter keeps it
while the server list endpoint, given the corresponding query, drops it —
the server free-text search does not consult `studentName`. -/
theorem getProjects_misses_studentName_match :
    filterProjects [pLogo] ⟨"ana", "all", "all", "all"⟩ = [pLogo] ∧
    getProjects [("project_1", pLogo)] ⟨none, none, none, some "ana"⟩ = [] := by
  constructor <;> decide

/-- C1 (amended): under the intended criteria correspondence the server
list endpoint and the client filter agree on the category, skill and
urgency predicates and on free-text matches over title, description,
category and skills; but the server search omits `studentName`, so the
server result is a subset of the client result, and a client-only item is
exactly one whose free-text match relies on the student name alone. -/
theorem getProjects_filterProjects_agree (st : PStore) (cr : Criteria)
    (q : Query) (h : correspond cr q) :
    (∀ p, p ∈ getProjects st q →
        p ∈ filterProjects (kvGetByPref st "project_") cr) ∧
    (∀ p, p ∈ filterProjects (kvGetByPref st "project_") cr →
        p ∈ getProjects st q ∨
          (serverSearchMatch p cr.searchTerm = false ∧
           jsIncludes (strToLower p.studentName) (strToLower cr.searchTerm) = true)) := by
  constructor
  · intro p hp
    rw [mem_getProjects] at hp
    rw [mem_filterProjects]
    obtain ⟨hmem, hm⟩ := hp
    rw [serverMatchesSpec_correspond cr q h] at hm
    obtain ⟨hs, hc, hk, hu⟩ := hm
    refine ⟨hmem, ?_, hc, hk, hu⟩
    intro hne
    rw [clientSearchMatch_eq, hs hne]
    rfl
  · intro p hp
    rw [mem_filterProjects] at hp
    obtain ⟨hmem, hs, hc, hk, hu⟩ := hp
    by_cases hne : cr.searchTerm = ""
    · left
      rw [mem_getProjects]
      refine ⟨hmem, ?_⟩
      rw [serverMatchesSpec_correspond cr q h]
      exact ⟨fun hcon => absurd hne hcon, hc, hk, hu⟩
    · have hsm := hs hne
      rw [clientSearchMatch_eq] at hsm
      cases hsv : serverSearchMatch p cr.searchTerm with
      | true =>
          left
          rw [mem_getProjects]
          refine ⟨hmem, ?_⟩
          rw [serverMatchesSpec_correspond cr q h]
          exact ⟨fun _ => hsv, hc, hk, hu⟩
      | false =>
          right
          refine ⟨rfl, ?_⟩
          rw [hsv] at hsm
          simpa using hsm

/-- Witness for C1 (amended) at the §8 sample: searching `react` through
the corresponding criteria on a one-project store. -/
theorem getProjects_filterProjects_agree_witness :
    correspond ⟨"react", "all", "all", "all"⟩ ⟨none, none, none, some "react"⟩ ∧
    ((∀ p, p ∈ getProjects [("project_1", pLogo)] ⟨none, none, none, some "react"⟩ →
        p ∈ filterProjects (kvGetByPref [("project_1", pLogo)] "project_")
          ⟨"react", "all", "all", "all"⟩) ∧
     (∀ p, p ∈ filterProjects (kvGetByPref [("project_1", pLogo)] "project_")
          ⟨"react", "all", "all", "all"⟩ →
        p ∈ getProjects [("project_1", pLogo)] ⟨none, none, none, some "react"⟩ ∨
          (serverSearchMatch p "react" = false ∧
           jsIncludes (strToLower p.studentName) (strToLower "react") = true))) :=
  ⟨by unfold correspond; decide,
   getProjects_filterProjects_agree [("project_1", pLogo)]
     ⟨"react", "all", "all", "all"⟩ ⟨none, none, none, some "react"⟩
     (by unfold correspond; decide)⟩


/-! ## Claims about update and delete -/

/-- A sequence of `PUT /projects/:id` requests: each element is one
request body with its clock reading, applied through `putCore`. -/
def applyPuts (st : PStore) (pid : String) (us : List (ProjectUpdate × String)) :
    PStore :=
  us.foldl (fun s un => (putCore s pid un.1 un.2).2) st

/-- C3 counterexample: a single successful `PUT` whose body carries `id`
and `createdAt` fields rewrites both stored fields — the shallow merge
spreads the body over the existing record with no field restriction. -/
theorem put_can_overwrite_id_createdAt :
    kvGet (putCore [("project_1", pLogo)] "project_1"
        { id := some "project_hijacked",
          createdAt := some "1999-01-01T00:00:00.000Z" }
        "2024-06-01T00:00:00.000Z").2 "project_1" =
      some { pLogo with
              id := "project_hijacked"
              createdAt := "1999-01-01T00:00:00.000Z"
              updatedAt := "2024-06-01T00:00:00.000Z" } ∧
    "project_hijacked" ≠ pLogo.id ∧
    "1999-01-01T00:00:00.000Z" ≠ pLogo.createdAt := by
  refine ⟨by decide, by decide, by decide⟩

/-- C3 (amended): across any sequence of successful updates whose bodies
do not themselves carry `id` or `createdAt` fields, the stored record
keeps the `id` and `createdAt` assigned at creation, and after each
update its `updatedAt` equals that update's clock reading — so `updatedAt`
increases whenever successive request clocks increase. -/
theorem put_sequence_preserves_id_createdAt (st : PStore) (pid : String)
    (p₀ : Project) (us : List (ProjectUpdate × String))
    (hp : kvGet st pid = some p₀)
    (hu : ∀ un ∈ us, un.1.id = none ∧ un.1.createdAt = none) :
    ∃ q, kvGet (applyPuts st pid us) pid = some q ∧
      q.id = p₀.id ∧ q.createdAt = p₀.createdAt ∧
      q.updatedAt = us.foldl (fun _ un => un.2) p₀.updatedAt := by
  induction us generalizing st p₀ with
  | nil => exact ⟨p₀, by simpa [applyPuts] using hp, rfl, rfl, rfl⟩
  | cons un rest ih =>
      have hstep : kvGet (putCore st pid un.1 un.2).2 pid =
          some (mergeProject p₀ un.1 un.2) := by
        simp [putCore, hp, kvGet_kvSet_self]
      obtain ⟨q, hq, hid, hcr, hup⟩ :=
        ih (putCore st pid un.1 un.2).2 (mergeProject p₀ un.1 un.2) hstep
          (fun x hx => hu x (List.mem_cons_of_mem _ hx))
      have hun := hu un (List.mem_cons_self _ _)
      refine ⟨q, ?_, ?_, ?_, ?_⟩
      · simpa [applyPuts] using hq
      · rw [hid]; simp [mergeProject, hun.1]
      · rw [hcr]; simp [mergeProject, hun.2]
      · rw [hup]; simp [applyPuts, mergeProject]

/-- Witness for C3 (amended): two benign updates on the sample store. -/
theorem put_sequence_preserves_id_createdAt_witness :
    kvGet [("project_1", pLogo)] "project_1" = some pLogo ∧
    (∃ q, kvGet (applyPuts [("project_1", pLogo)] "project_1"
        [({ title := some "New title" }, "2024-06-01T00:00:00.000Z"),
         ({ urgency := some "urgent" }, "2024-07-01T00:00:00.000Z")])
        "project_1" = some q ∧
      q.id = pLogo.id ∧ q.createdAt = pLogo.createdAt ∧
      q.updatedAt =
        [(({ title := some "New title" } : ProjectUpdate), "2024-06-01T00:00:00.000Z"),
         (({ urgency := some "urgent" } : ProjectUpdate), "2024-07-01T00:00:00.000Z")].foldl
          (fun _ un => un.2) pLogo.updatedAt) :=
  ⟨by decide,
   put_sequence_preserves_id_createdAt [("project_1", pLogo)] "project_1" pLogo
     [({ title := some "New title" }, "2024-06-01T00:00:00.000Z"),
      ({ urgency := some "urgent" }, "2024-07-01T00:00:00.000Z")]
     (by decide) (by decide)⟩

/-- C5: `PUT /projects/:id` on an absent id answers NotFound and leaves
the store untouched; on a present id it returns the shallow merge of the
body over the existing record with `updatedAt` set to the request clock,
and persists exactly that record under the same key (other keys kept);
the authenticated variant behaves as the same core behind its gate. -/
theorem put_contract (st : PStore) (pid : String) (u : ProjectUpdate)
    (now : String) :
    (kvGet st pid = none → putCore st pid u now = (PutResult.notFound, st)) ∧
    (∀ p, kvGet st pid = some p →
        putCore st pid u now =
          (PutResult.ok (mergeProject p u now),
           kvSet st pid (mergeProject p u now)) ∧
        kvGet (kvSet st pid (mergeProject p u now)) pid =
          some (mergeProject p u now) ∧
        (mergeProject p u now).updatedAt = now) ∧
    (putProject (some ()) st pid u now = putCore st pid u now) ∧
    (putProject none st pid u now = (PutResult.unauthorized, st)) := by
  refine ⟨fun h => by simp [putCore, h], fun p h => ?_, rfl, rfl⟩
  exact ⟨by simp [putCore, h], kvGet_kvSet_self st pid _, rfl⟩

/-- Witness for C5 at the sample store: both the absent and the present
case, evaluated. -/
theorem put_contract_witness :
    (kvGet [("project_1", pLogo)] "project_9" = none ∧
      putCore [("project_1", pLogo)] "project_9" { title := some "X" }
        "2024-06-01T00:00:00.000Z" =
        (PutResult.notFound, [("project_1", pLogo)])) ∧
    (kvGet [("project_1", pLogo)] "project_1" = some pLogo ∧
      putCore [("project_1", pLogo)] "project_1" { title := some "X" }
        "2024-06-01T00:00:00.000Z" =
        (PutResult.ok (mergeProject pLogo { title := some "X" }
            "2024-06-01T00:00:00.000Z"),
         kvSet [("project_1", pLogo)] "project_1"
           (mergeProject pLogo { title := some "X" }
             "2024-06-01T00:00:00.000Z"))) :=
  ⟨⟨by decide,
    (put_contract [("project_1", pLogo)] "project_9" { title := some "X" }
      "2024-06-01T00:00:00.000Z").1 (by decide)⟩,
   ⟨by decide,
    ((put_contract [("project_1", pLogo)] "project_1" { title := some "X" }
      "2024-06-01T00:00:00.000Z").2.1 pLogo (by decide)).1⟩⟩

/-- C6: a successful `PUT /projects/:id` changes only `updatedAt` and the
fields present in the body — every field the body omits keeps its stored
value, and every other key of the store is untouched. -/
theorem put_frame (st : PStore) (pid : String) (u : ProjectUpdate)
    (now : String) (p : Project) (hp : kvGet st pid = some p) :
    (putCore st pid u now).1 = PutResult.ok (mergeProject p u now) ∧
    (∀ k, k ≠ pid → kvGet (putCore st pid u now).2 k = kvGet st k) ∧
    (u.id = none → (mergeProject p u now).id = p.id) ∧
    (u.title = none → (mergeProject p u now).title = p.title) ∧
    (u.description = none → (mergeProject p u now).description = p.description) ∧
    (u.category = none → (mergeProject p u now).category = p.category) ∧
    (u.skills = none → (mergeProject p u now).skills = p.skills) ∧
    (u.urgency = none → (mergeProject p u now).urgency = p.urgency) ∧
    (u.studentName = none → (mergeProject p u now).studentName = p.studentName) ∧
    (u.contactInfo = none → (mergeProject p u now).contactInfo = p.contactInfo) ∧
    (u.imageUrl = none → (mergeProject p u now).imageUrl = p.imageUrl) ∧
    (u.deadline = none → (mergeProject p u now).deadline = p.deadline) ∧
    (u.createdAt = none → (mergeProject p u now).createdAt = p.createdAt) := by
  refine ⟨by simp [putCore, hp], fun k hk => ?_, ?_, ?_, ?_, ?_, ?_, ?_, ?_, ?_, ?_, ?_, ?_⟩
  · simp only [putCore, hp]
    exact kvGet_kvSet_ne st pid k _ hk
  all_goals intro h
  all_goals simp [mergeProject, h]

/-- Witness for C6: updating only the title of the sample record leaves
the other fields and the second key of the store intact. -/
theorem put_frame_witness :
    kvGet [("project_1", pLogo), ("categories_token", pLogo)] "project_1" =
      some pLogo ∧
    (∀ k, k ≠ "project_1" →
      kvGet (putCore [("project_1", pLogo), ("categories_token", pLogo)]
          "project_1" { title := some "X" } "2024-06-01T00:00:00.000Z").2 k =
        kvGet [("project_1", pLogo), ("categories_token", pLogo)] k) ∧
    (mergeProject pLogo { title := some "X" }
        "2024-06-01T00:00:00.000Z").studentName = pLogo.studentName :=
  ⟨by decide,
   (put_frame [("project_1", pLogo), ("categories_token", pLogo)] "project_1"
      { title := some "X" } "2024-06-01T00:00:00.000Z" pLogo (by decide)).2.1,
   (put_frame [("project_1", pLogo), ("categories_token", pLogo)] "project_1"
      { title := some "X" } "2024-06-01T00:00:00.000Z" pLogo (by decide)).2.2.2.2.2.2.2.2.1
     rfl⟩


/-- Store well-formedness maintained by the create path: every entry's
record carries its own key as `id`. -/
def wfStore (st : PStore) : Prop := ∀ e ∈ st, e.2.id = e.1

/-- C4 counterexample: the `index.tsx` delete handler performs no
existence check — deleting an id absent from the store answers success,
not NotFound. -/
theorem delete_unchecked_no_notFound :
    deleteProject (some ()) [] "project_missing" = (DelResult.success, []) ∧
    DelResult.success ≠ DelResult.notFound := by
  refine ⟨by decide, by decide⟩

/-- C4 (amended): in the existence-checked variants (`part_001`,
`part_002`) deleting an absent id answers NotFound and removes nothing,
and deleting a present id removes that record so that any subsequent
`GET /projects` excludes it; the `index.tsx` handler instead always
answers success, likewise removing a present id but reporting success
even for an absent one (still removing nothing). -/
theorem delete_contract (st : PStore) (pid : String) :
    (kvGet st pid = none → deleteCore st pid = (DelResult.notFound, st)) ∧
    (∀ p, kvGet st pid = some p →
        deleteCore st pid = (DelResult.success, kvDel st pid) ∧
        kvGet (kvDel st pid) pid = none ∧
        (wfStore st → ∀ q r, r ∈ getProjects (kvDel st pid) q → r.id ≠ pid)) ∧
    (deleteProjectChecked (some ()) st pid = deleteCore st pid) ∧
    (deleteProject (some ()) st pid = (DelResult.success, kvDel st pid)) ∧
    (kvGet st pid = none → kvDel st pid = st) := by
  refine ⟨fun h => by simp [deleteCore, h], fun p h => ?_, rfl, rfl,
    kvDel_of_absent st pid⟩
  refine ⟨by simp [deleteCore, h], kvGet_kvDel_self st pid, ?_⟩
  intro hwf q r hr
  obtain ⟨hmem, _⟩ := (mem_getProjects (kvDel st pid) q r).1 hr
  obtain ⟨e, hst, hne, _, hv⟩ := mem_kvGetByPref_kvDel st "project_" pid r hmem
  rw [← hv, hwf e hst]
  exact hne

/-- Witness for C4 (amended) at a two-project store: deleting the present
sample record. -/
theorem delete_contract_witness :
    kvGet [("project_1", pLogo)] "project_1" = some pLogo ∧
    deleteCore [("project_1", pLogo)] "project_1" = (DelResult.success, []) ∧
    (∀ q r, r ∈ getProjects (kvDel [("project_1", pLogo)] "project_1") q →
      r.id ≠ "project_1") :=
  ⟨by decide,
   by
    have := ((delete_contract [("project_1", pLogo)] "project_1").2.1 pLogo
      (by decide)).1
    simpa using this,
   ((delete_contract [("project_1", pLogo)] "project_1").2.1 pLogo
      (by decide)).2.2 (by unfold wfStore; decide)⟩

/-! ## Claims about creation -/

/-- C7 counterexample: the body is spread after the generated id, so a
request body carrying `id: ""` makes the returned (and stored) record's
id empty — the id is not server-assigned for every request body. -/
theorem create_body_id_overrides :
    (createProject []
      { id := some ""
        title := "Logo"
        description := "need a logo"
        category := "Design"
        skills := ["Illustrator"]
        urgency := "normal"
        studentName := "Ana"
        contactInfo := "ana@x.nl" }
      1700000000000 "k3j9x2m4q" "2024-01-01T10:00:00.000Z").1.id = "" := by
  decide

/-- C7 (amended): `POST /projects` always returns the stored record with
`createdAt` equal to `updatedAt` (both written after the body spread);
when the body carries no `id` field the returned id is the generated
`project_<millis>_<rand>`, which is never empty, and ids generated from
different (millisecond, random-suffix) pairs are distinct. -/
theorem create_contract (st : PStore) (data : ProjectData) (nowMs : Nat)
    (rand : String) (now : String) :
    ((createProject st data nowMs rand now).1.createdAt =
      (createProject st data nowMs rand now).1.updatedAt) ∧
    (data.id = none →
      (createProject st data nowMs rand now).1.id = genProjectId nowMs rand) ∧
    (genProjectId nowMs rand ≠ "") ∧
    (kvGet (createProject st data nowMs rand now).2 (genProjectId nowMs rand) =
      some (createProject st data nowMs rand now).1) ∧
    (∀ t₁ t₂ : Nat, ∀ r₁ r₂ : String, (t₁, r₁) ≠ (t₂, r₂) →
      genProjectId t₁ r₁ ≠ genProjectId t₂ r₂) := by
  refine ⟨rfl, fun h => by simp [createProject, h], genProjectId_ne_empty nowMs rand,
    kvGet_kvSet_self st _ _, ?_⟩
  intro t₁ t₂ r₁ r₂ hne heq
  obtain ⟨ht, hr⟩ := genProjectId_inj heq
  exact hne (by rw [ht, hr])

/-- Witness for C7 (amended): a well-formed body without an id field, and
two id generations differing in the millisecond. -/
theorem create_contract_witness :
    (({ title := "Logo"
        description := "need a logo"
        category := "Design"
        skills := ["Illustrator"]
        urgency := "normal"
        studentName := "Ana"
        contactInfo := "ana@x.nl" } : ProjectData).id = none) ∧
    (createProject []
      { title := "Logo"
        description := "need a logo"
        category := "Design"
        skills := ["Illustrator"]
        urgency := "normal"
        studentName := "Ana"
        contactInfo := "ana@x.nl" }
      17 "k3j9x2m4q" "2024-01-01T10:00:00.000Z").1.id = genProjectId 17 "k3j9x2m4q" ∧
    ((17, "k3j9x2m4q") : Nat × String) ≠ (18, "k3j9x2m4q") ∧
    genProjectId 17 "k3j9x2m4q" ≠ genProjectId 18 "k3j9x2m4q" :=
  ⟨rfl,
   (create_contract []
      { title := "Logo"
        description := "need a logo"
        category := "Design"
        skills := ["Illustrator"]
        urgency := "normal"
        studentName := "Ana"
        contactInfo := "ana@x.nl" }
      17 "k3j9x2m4q" "2024-01-01T10:00:00.000Z").2.1 rfl,
   by decide,
   (create_contract []
      { title := "Logo"
        description := "need a logo"
        category := "Design"
        skills := ["Illustrator"]
        urgency := "normal"
        studentName := "Ana"
        contactInfo := "ana@x.nl" }
      17 "k3j9x2m4q" "2024-01-01T10:00:00.000Z").2.2.2.2 17 18 "k3j9x2m4q" "k3j9x2m4q"
     (by decide)⟩


/-! ## Claims about the admin workflow -/

/-- C8: for an approved admin caller, approving an absent request id
answers NotFound; approving a present one stamps the request approved
(`approvedAt`, `approvedBy` set to the clock and the approver's email)
and appends exactly one `AdminUser` carrying the request's email and
name; and the operation is not idempotent — approving the same id twice
appends two `AdminUser` entries with the same email. -/
theorem approve_contract (admin : AdminUser) (st : AdminState)
    (rid now : String) :
    (st.admin_requests.find? (fun r => r.id == rid) = none →
      approveRequest (some admin) st rid now = (ApproveResult.notFound, st)) ∧
    (∀ req, st.admin_requests.find? (fun r => r.id == rid) = some req →
      approveRequest (some admin) st rid now =
        (ApproveResult.ok,
          { admin_users := st.admin_users ++
              [{ email := req.email, name := req.name, approved := true,
                 approvedAt := now, approvedBy := admin.email }]
            admin_requests := updateFirst (fun r => r.id == rid)
              (stampRequest now admin.email) st.admin_requests }) ∧
      (stampRequest now admin.email req).approved = true ∧
      (stampRequest now admin.email req).approvedAt = some now ∧
      (stampRequest now admin.email req).approvedBy = some admin.email ∧
      (∀ admin₂ now₂, ∃ u₁ u₂,
        (approveRequest (some admin₂)
          (approveRequest (some admin) st rid now).2 rid now₂).2.admin_users =
          st.admin_users ++ [u₁, u₂] ∧
        u₁.email = req.email ∧ u₂.email = req.email)) := by
  refine ⟨fun h => by simp [approveRequest, h], fun req h => ?_⟩
  have hp : (req.id == rid) = true := by simpa using List.find?_some h
  refine ⟨by simp [approveRequest, h], rfl, rfl, rfl, ?_⟩
  intro admin₂ now₂
  have hpf : ((stampRequest now admin.email req).id == rid) = true := by
    simpa [stampRequest] using hp
  have hf2 : List.find? (fun r => r.id == rid)
      (updateFirst (fun r => r.id == rid) (stampRequest now admin.email)
        st.admin_requests) = some (stampRequest now admin.email req) :=
    find?_updateFirst _ _ _ _ h hpf
  refine ⟨{ email := req.email, name := req.name, approved := true,
            approvedAt := now, approvedBy := admin.email },
          { email := req.email, name := req.name, approved := true,
            approvedAt := now₂, approvedBy := admin₂.email }, ?_, rfl, rfl⟩
  simp only [approveRequest, h]
  rw [hf2]
  simp [stampRequest, List.append_assoc]

/-- The bootstrap administrator seeded by `initializeData`
(`index.tsx:82-88`). -/
def seedAdmin : AdminUser :=
  { email := "admin@glu.nl"
    name := "GLU Administrator"
    approved := true
    approvedAt := "2024-01-01T00:00:00.000Z"
    approvedBy := "system" }

/-- A pending sample admin request. -/
def sampleRequest : AdminRequest :=
  { id := "request_1"
    email := "new@glu.nl"
    name := "New Admin"
    createdAt := "2024-01-02T00:00:00.000Z"
    approved := false }

/-- A store state with the seed administrator and one pending request. -/
def sampleAdminState : AdminState :=
  { admin_users := [seedAdmin]
    admin_requests := [sampleRequest] }

/-- Witness for C8: the seed admin approves the sample request twice; two
`AdminUser` entries with the request's email result. -/
theorem approve_contract_witness :
    sampleAdminState.admin_requests.find? (fun r => r.id == "request_1") =
      some sampleRequest ∧
    (∃ u₁ u₂,
      (approveRequest (some seedAdmin)
        (approveRequest (some seedAdmin) sampleAdminState "request_1"
          "2024-02-01T00:00:00.000Z").2 "request_1"
          "2024-03-01T00:00:00.000Z").2.admin_users =
        sampleAdminState.admin_users ++ [u₁, u₂] ∧
      u₁.email = sampleRequest.email ∧ u₂.email = sampleRequest.email) :=
  ⟨by decide,
   ((approve_contract seedAdmin sampleAdminState "request_1"
      "2024-02-01T00:00:00.000Z").2 sampleRequest (by decide)).2.2.2.2
     seedAdmin "2024-03-01T00:00:00.000Z"⟩

/-- C9: when the external auth provider rejects the account creation,
`POST /admin/request` fails with the account-creation error and the
stored request list is unchanged; when it accepts, exactly one pending
request (`approved = false`) is appended, and it shows up in the pending
filter used by `GET /admin/requests`. -/
theorem admin_request_contract (st : AdminState) (email name : String)
    (nowMs : Nat) (rand now : String) :
    (submitAdminRequest false st email name nowMs rand now =
      (RequestResult.accountCreationError, st)) ∧
    (submitAdminRequest true st email name nowMs rand now =
      (RequestResult.ok,
        { st with admin_requests := st.admin_requests ++
            [{ id := genRequestId nowMs rand, email := email, name := name,
               createdAt := now, approved := false }] })) ∧
    ((submitAdminRequest true st email name nowMs rand now).2.admin_requests.length =
      st.admin_requests.length + 1) ∧
    ((submitAdminRequest true st email name nowMs rand now).2.admin_users =
      st.admin_users) ∧
    (({ id := genRequestId nowMs rand, email := email, name := name,
        createdAt := now, approved := false } : AdminRequest) ∈
      ((submitAdminRequest true st email name nowMs rand now).2.admin_requests.filter
        (fun r => !r.approved))) := by
  refine ⟨rfl, rfl, by simp [submitAdminRequest], rfl, ?_⟩
  simp [submitAdminRequest, List.mem_filter]

/-! ## Claim about arbitrary store keys -/

/-- C10: the update and delete handlers take the raw path id as the store
key — nothing restricts it to `project_…` keys, and the `part_002`
variants take no credentials at all. For any key present in the store
(here quantified over every key, project-shaped or not), delete removes
exactly that key and update overwrites it with the JavaScript shallow
merge of the body over whatever value the key held. -/
theorem anyKey_mutation (st : JStore) (k : String) (v : JVal)
    (hk : kvGet st k = some v) (updates : JVal) (now : String) :
    deleteAnyKey st k = (true, kvDel st k) ∧
    kvGet (kvDel st k) k = none ∧
    (∀ k2, k2 ≠ k → kvGet (kvDel st k) k2 = kvGet st k2) ∧
    putAnyKey st k updates now =
      (some (jsMergeUpdate v updates now),
       kvSet st k (jsMergeUpdate v updates now)) ∧
    kvGet (kvSet st k (jsMergeUpdate v updates now)) k =
      some (jsMergeUpdate v updates now) := by
  refine ⟨by simp [deleteAnyKey, hk], kvGet_kvDel_self st k,
    fun k2 h2 => kvGet_kvDel_ne st k k2 h2,
    by simp [putAnyKey, hk], kvGet_kvSet_self st k _⟩

/-- The `admin_users` value as the untyped store holds it. -/
def jAdminUsers : JVal :=
  JVal.jarr [JVal.jobj
    [("email", JVal.jstr "admin@glu.nl"), ("approved", JVal.jbool true)]]

/-- Witness for C10: an unauthenticated delete and update aimed at the
non-project key `admin_users`. -/
theorem anyKey_mutation_witness :
    kvGet [("admin_users", jAdminUsers)] "admin_users" = some jAdminUsers ∧
    (deleteAnyKey [("admin_users", jAdminUsers)] "admin_users" =
        (true, kvDel [("admin_users", jAdminUsers)] "admin_users") ∧
      kvGet (kvDel [("admin_users", jAdminUsers)] "admin_users") "admin_users" =
        none ∧
      (∀ k2, k2 ≠ "admin_users" →
        kvGet (kvDel [("admin_users", jAdminUsers)] "admin_users") k2 =
          kvGet [("admin_users", jAdminUsers)] k2) ∧
      putAnyKey [("admin_users", jAdminUsers)] "admin_users"
          (JVal.jobj [("pwned", JVal.jbool true)]) "2024-06-01T00:00:00.000Z" =
        (some (jsMergeUpdate jAdminUsers (JVal.jobj [("pwned", JVal.jbool true)])
            "2024-06-01T00:00:00.000Z"),
         kvSet [("admin_users", jAdminUsers)] "admin_users"
           (jsMergeUpdate jAdminUsers (JVal.jobj [("pwned", JVal.jbool true)])
             "2024-06-01T00:00:00.000Z")) ∧
      kvGet (kvSet [("admin_users", jAdminUsers)] "admin_users"
          (jsMergeUpdate jAdminUsers (JVal.jobj [("pwned", JVal.jbool true)])
            "2024-06-01T00:00:00.000Z")) "admin_users" =
        some (jsMergeUpdate jAdminUsers (JVal.jobj [("pwned", JVal.jbool true)])
          "2024-06-01T00:00:00.000Z")) :=
  ⟨rfl,
   anyKey_mutation [("admin_users", jAdminUsers)] "admin_users" jAdminUsers rfl
     (JVal.jobj [("pwned", JVal.jbool true)]) "2024-06-01T00:00:00.000Z"⟩

end VraagAanbod
